import Mathlib

/-!
Shallow embedding of the referral-router workflow (src/agent_app/graph.py,
src/agent_app/tools.py, src/agent_app/main.py).

JSON dictionaries are modelled as association lists of string keys to string
values (`Obj`); the workflow only ever inspects string-valued keys
(resourceType, id, reference) or tests emptiness, so nested values are not
needed.  External effects (FHIR-server lookups, the LLM completion, HTTP
responses) are supplied by explicit environment records, one response per
call site, so every step function is total and executable.  Python dicts
that start out `{}` and are tested for truthiness are modelled as `Option`
(for `validation_result` / `posting_result`) or as the empty list (for
`draft_json` / `final_json` / `empi_data`).  Exceptions caught by a node's
`except` block are modelled by the error branches of the environment.
-/

namespace ReferralRouter

/-- A JSON object: ordered association list, as Python dicts preserve
insertion order. -/
abbrev Obj := List (String × String)

/-- `d.get(k)` on a Python dict: first binding of the key, if any. -/
def Obj.get (o : Obj) (k : String) : Option String :=
  (o.find? (fun p => p.1 == k)).map Prod.snd

/-- `d[k] = v` on a Python dict: overwrite in place if the key exists,
otherwise append. -/
def Obj.set : Obj → String → String → Obj
  | [], k, v => [(k, v)]
  | (k1, v1) :: rest, k, v =>
      if k1 == k then (k, v) :: rest else (k1, v1) :: Obj.set rest k v

/-- One issue of an OperationOutcome: `severity` and `diagnostics` keys,
either possibly absent (tools.py lines 58-60). -/
structure Issue where
  severity : Option String
  diagnostics : Option String
deriving DecidableEq

/-- The dict returned by `validate_fhir`: `{"valid": bool, "errors": [...]}`. -/
structure ValidationResult where
  valid : Bool
  errors : List String
deriving DecidableEq

/-- The dict returned by `post_fhir` (tools.py lines 93-110). -/
structure PostResult where
  success : Bool
  status_code : Option Nat
  resource_id : Option String
  error : Option String
deriving DecidableEq

/-- The slice of the pdf-extractor response the workflow reads:
`pdf_result["success"]`, `pdf_result["data"]["text_content"]` (absent key
modelled as `none`), and `pdf_result.get("error")`. -/
structure PdfData where
  success : Bool
  text_content : Option String
  error : Option String
deriving DecidableEq

/-- One row of the audit_log table as written by
`AuditLogger.log_operation` (tools.py lines 137-155); the serialized
input/output summaries are not modelled. -/
structure AuditRecord where
  operation : String
  success : Bool
  retryCount : Nat
  errorMessage : Option String
deriving DecidableEq

/-- `AgentState` (graph.py lines 12-21).  `validation_result` and
`posting_result` start as the empty dict `{}` (falsy, no keys), modelled as
`none`; `draft_json` and `final_json` start as `{}`, modelled as `[]`. -/
structure State where
  pdf_path : String
  pdf_data : PdfData
  empi_data : Obj
  draft_json : Obj
  validation_result : Option ValidationResult
  final_json : Obj
  posting_result : Option PostResult
  retry_count : Nat
  error_message : String
deriving DecidableEq

/-- `state["validation_result"].get("valid", False)`. -/
def getValid : Option ValidationResult → Bool
  | none => false
  | some v => v.valid

/-- `state["validation_result"].get("errors", [])`. -/
def getErrors : Option ValidationResult → List String
  | none => []
  | some v => v.errors

/-- The HTTP interaction of one `validate_fhir` call (tools.py lines
44-73): a 200 response whose body is an OperationOutcome, a 200 response
with some other JSON body, a non-200 response with its status and text, or
an exception raised by the request or by decoding the body (caught by the
outer `except`, message = `str(e)`). -/
inductive HttpOutcome where
  | outcome (issues : List Issue)
  | other
  | httpErr (status : Nat) (text : String)
  | exn (msg : String)
deriving DecidableEq

/-- Environment of one `validate_fhir` call: whether the fhirclient parse
`servicerequest.ServiceRequest(resource_json)` raises (with `str(e)`), and
the server response. -/
structure ValidateEnv where
  parseError : Option String
  http : HttpOutcome
deriving DecidableEq

/-- `FHIRTools.validate_fhir` (tools.py lines 19-73). -/
def validate_fhir (res : Obj) (env : ValidateEnv) : ValidationResult :=
  if res.get "resourceType" == some "ServiceRequest" then
    match env.parseError with
    | some e => ⟨false, ["FHIR validation failed: " ++ e]⟩
    | none =>
      match env.http with
      | .outcome issues =>
          let errs := (issues.filter
            (fun i => i.severity == some "error" || i.severity == some "fatal")).map
            (fun i => i.diagnostics.getD "Unknown error")
          if errs.isEmpty then ⟨true, []⟩ else ⟨false, errs⟩
      | .other => ⟨true, []⟩
      | .httpErr status text =>
          ⟨false, ["HTTP " ++ toString status ++ ": " ++ text]⟩
      | .exn msg => ⟨false, [msg]⟩
  else ⟨false, ["Only ServiceRequest resources supported"]⟩

/-- The HTTP interaction of one `post_fhir` call (tools.py lines 85-110):
a response with status, created-resource id (from the body) and text, or
an exception. -/
inductive PostHttp where
  | resp (status : Nat) (rid : Option String) (text : String)
  | exn (msg : String)
deriving DecidableEq

/-- `FHIRTools.post_fhir` (tools.py lines 75-110). -/
def post_fhir (_res : Obj) (env : PostHttp) : PostResult :=
  match env with
  | .resp status rid text =>
      if status == 200 || status == 201 then
        ⟨true, some status, rid, none⟩
      else
        ⟨false, some status, none, some text⟩
  | .exn msg => ⟨false, none, none, some msg⟩

/-- Environment of the generator node (graph.py lines 32-135): the patient
id returned by the `Patient?_count=1` lookup (`none` = request failed or no
entries, graph.py lines 40-54), the practitioner id from the
`Practitioner?_count=1` lookup, and the LLM draft — `.ok d` when the
completion's content parses to JSON (directly or via the fenced-block
fallback), `.error msg` when the completion call or the parse raises
(graph.py lines 97-115), with `msg = str(e)`. -/
structure GenEnv where
  patientId : Option String
  practitionerId : Option String
  llm : Except String Obj

/-- Message of the ValueError raised at graph.py line 54. -/
def noPatientsMsg : String :=
  "No patients found in FHIR server. Please ensure patients are loaded before processing referrals."

/-- Message of the ValueError raised at graph.py line 68. -/
def noPractitionersMsg : String :=
  "No practitioners found in FHIR server. Please ensure practitioners are loaded before processing referrals."

/-- `str(KeyError)` when `pdf_data["data"]["text_content"]` is missing
(graph.py line 35). -/
def keyErrorMsg : String := "'text_content'"

/-- The `generator` node (graph.py lines 32-135).  Note that
`empi_info = state.get("empi_data", {})` aliases the state's dict, so the
in-place writes of `"id"` and `"reference"` (graph.py lines 48-49) survive
into the returned state on every path that reaches them, including the
later error paths. -/
def generator (s : State) (env : GenEnv) : State × List AuditRecord :=
  match s.pdf_data.text_content with
  | none =>
      ({ s with error_message := keyErrorMsg },
       [⟨"generator", false, 0, some keyErrorMsg⟩])
  | some _ =>
      let empi2 : Obj :=
        match env.patientId with
        | some pid => (s.empi_data.set "id" pid).set "reference" ("Patient/" ++ pid)
        | none => s.empi_data
      match env.patientId with
      | none =>
          ({ s with empi_data := empi2, error_message := noPatientsMsg },
           [⟨"generator", false, 0, some noPatientsMsg⟩])
      | some _ =>
          match env.practitionerId with
          | none =>
              ({ s with empi_data := empi2, error_message := noPractitionersMsg },
               [⟨"generator", false, 0, some noPractitionersMsg⟩])
          | some _ =>
              match env.llm with
              | .error msg =>
                  ({ s with empi_data := empi2, error_message := msg },
                   [⟨"generator", false, 0, some msg⟩])
              | .ok draft =>
                  ({ s with empi_data := empi2, draft_json := draft },
                   [⟨"generator", true, 0, none⟩])

/-- The `validator` node (graph.py lines 137-167).  Its body cannot raise:
`validate_fhir` and `log_operation` catch all exceptions internally and
the `draft_json` key always exists, so the `except` branch is dead and is
not modelled. -/
def validator (s : State) (env : ValidateEnv) : State × List AuditRecord :=
  let vr := validate_fhir s.draft_json env
  if vr.valid then
    ({ s with validation_result := some vr, final_json := s.draft_json },
     [⟨"validator", vr.valid, 0, none⟩])
  else
    ({ s with validation_result := some vr },
     [⟨"validator", vr.valid, 0, none⟩])

/-- Message of the ValueError raised at graph.py line 211. -/
def fixerParseMsg : String := "Could not parse JSON from LLM response"

/-- The `fixer` node (graph.py lines 169-233).  The environment is the
LLM interaction: `.ok fixed` when the completion parses to JSON, `.error
msg` when the call or the parse raises.  When the recorded validation
errors are empty the node returns before the LLM call and before any
audit write (graph.py lines 176-177). -/
def fixer (s : State) (env : Except String Obj) : State × List AuditRecord :=
  let errors := getErrors s.validation_result
  if errors.isEmpty then
    ({ s with final_json := s.draft_json }, [])
  else
    match env with
    | .ok fixed =>
        ({ s with draft_json := fixed, retry_count := s.retry_count + 1 },
         [⟨"fixer", true, s.retry_count, none⟩])
    | .error msg =>
        ({ s with error_message := msg },
         [⟨"fixer", false, s.retry_count, some msg⟩])

/-- The `poster` node (graph.py lines 235-261).  Its body cannot raise
(`post_fhir` and `log_operation` catch internally), so the `except` branch
is dead and is not modelled. -/
def poster (s : State) (env : PostHttp) : State × List AuditRecord :=
  let pr := post_fhir s.final_json env
  ({ s with posting_result := some pr }, [⟨"poster", pr.success, 0, none⟩])

/-- `posting_result.get("success", False)` as read by `logger_node`. -/
def getPostSuccess : Option PostResult → Bool
  | none => false
  | some pr => pr.success

/-- The `logger_node` node (graph.py lines 263-286). -/
def logger_node (s : State) : State × List AuditRecord :=
  (s, [⟨"complete_workflow", getPostSuccess s.posting_result, 0, none⟩])

/-- `should_retry` (graph.py lines 289-300), with `max_retries = 3`. -/
def should_retry (s : State) : String :=
  if getValid s.validation_result then "post"
  else if s.retry_count < 3 then "fix"
  else "end"

/-- `should_continue` (graph.py lines 302-307): `state.get("posting_result")`
is truthy exactly when the dict is non-empty, i.e. when poster has written
it. -/
def should_continue (s : State) : String :=
  if (s.posting_result).isSome then "log" else "end"

/-- Graph nodes (graph.py lines 315-319). -/
inductive Step where
  | gen | val | fix | post | log
deriving DecidableEq

/-- A point of the workflow execution: the node about to run (`none` =
END), the state, the audit log in chronological order, and how many
validator / fixer calls have happened (indices into the environment's
response streams). -/
structure Config where
  node : Option Step
  state : State
  audit : List AuditRecord
  vCount : Nat
  fCount : Nat
deriving DecidableEq

/-- Environment of a whole run: one generator environment, the response to
the k-th validate call, the LLM result of the k-th fixer call, and the
submit response. -/
structure Env where
  gen : GenEnv
  valids : Nat → ValidateEnv
  fixes : Nat → Except String Obj
  post : PostHttp

/-- One LangGraph superstep of the graph wired in `create_graph` (graph.py
lines 310-346): run the current node, merge its returned dict, follow the
outgoing edge — unconditional `generator -> validator` and
`fixer -> validator`, the `should_retry` conditional after `validator`
(post -> poster, fix -> fixer, end -> logger), the `should_continue`
conditional after `poster` (log -> logger, end -> END), and
`logger -> END`. -/
def stepConfig (env : Env) (c : Config) : Config :=
  match c.node with
  | none => c
  | some .gen =>
      let r := generator c.state env.gen
      { c with node := some .val, state := r.1, audit := c.audit ++ r.2 }
  | some .val =>
      let r := validator c.state (env.valids c.vCount)
      let route := should_retry r.1
      let nxt : Option Step :=
        if route = "post" then some .post
        else if route = "fix" then some .fix
        else some .log
      { c with node := nxt, state := r.1, audit := c.audit ++ r.2,
               vCount := c.vCount + 1 }
  | some .fix =>
      let r := fixer c.state (env.fixes c.fCount)
      { c with node := some .val, state := r.1, audit := c.audit ++ r.2,
               fCount := c.fCount + 1 }
  | some .post =>
      let r := poster c.state env.post
      let nxt : Option Step :=
        if should_continue r.1 = "log" then some .log else none
      { c with node := nxt, state := r.1, audit := c.audit ++ r.2 }
  | some .log =>
      let r := logger_node c.state
      { c with node := none, state := r.1, audit := c.audit ++ r.2 }

/-- The initial state built by `process_referral` (main.py lines 59-69). -/
def mkInit (pdfPath : String) (pdf : PdfData) (empi : Obj) : State :=
  { pdf_path := pdfPath, pdf_data := pdf, empi_data := empi,
    draft_json := [], validation_result := none, final_json := [],
    posting_result := none, retry_count := 0, error_message := "" }

/-- The configuration after `n` supersteps of a run started on `init`
(entry point `generator`, graph.py line 344). -/
def reach (env : Env) (init : State) : Nat → Config
  | 0 => ⟨some .gen, init, [], 0, 0⟩
  | n + 1 => stepConfig env (reach env init n)

/-- Result of the EMPI lookup as read by `process_referral` (main.py lines
52-56): the `success` flag and `empi_result.get("patient", {})`. -/
structure EmpiResult where
  success : Bool
  patient : Obj
deriving DecidableEq

/-- The pre-workflow phase of `ReferralRouter.process_referral` (main.py
lines 35-69): path check, extraction check, optional EMPI lookup, then the
initial state handed to the graph.  `.error` models the raised exception
(caught at line 96 and returned as a failure). -/
def process_referral_setup (pdfExists : Bool) (pdfPath : String)
    (pdf : PdfData) (email : Option String) (empi : EmpiResult) :
    Except String State :=
  if !pdfExists then .error ("PDF file not found: " ++ pdfPath)
  else if !pdf.success then
    .error ("PDF extraction failed: " ++ (pdf.error.getD "None"))
  else
    let empi_data : Obj :=
      match email with
      | none => []
      | some _ => if empi.success then empi.patient else []
    .ok (mkInit pdfPath pdf empi_data)

/-! Concrete inputs used by counterexamples and witnesses. -/

/-- A minimal candidate resource of the supported type. -/
def draftSR : Obj := [("resourceType", "ServiceRequest")]

/-- A successful pdf-extraction result. -/
def pdfOk : PdfData := ⟨true, some "referral text", none⟩

/-- An initial state as built by `process_referral` for an empty identity
context. -/
def i8 : State := mkInit "doc.pdf" pdfOk []

/-- An environment in which generation succeeds, the first three
validations fail with one error-severity issue, every repair parses, and
the fourth validation passes; submission succeeds. -/
def E8 : Env :=
  { gen := ⟨some "p1", some "pr1", .ok draftSR⟩,
    valids := fun k =>
      if k < 3 then ⟨none, .outcome [⟨some "error", some "bad field"⟩]⟩
      else ⟨none, .outcome []⟩,
    fixes := fun _ => .ok draftSR,
    post := .resp 201 (some "sr-9") "created" }

/-- An environment in which the generator's patient lookup finds no
patients, so the generator raises. -/
def E1 : Env :=
  { gen := ⟨none, none, .error "x"⟩,
    valids := fun _ => ⟨none, .other⟩,
    fixes := fun _ => .ok [],
    post := .exn "unused" }

/-- A state whose recorded validation outcome is invalid with an empty
error list, as handed to the fixer's defensive branch. -/
def s5 : State :=
  { mkInit "a.pdf" pdfOk [] with
    validation_result := some ⟨false, []⟩, draft_json := draftSR }

/-- A state with a non-empty identity context, before generation. -/
def s6 : State := mkInit "p.pdf" ⟨true, some "txt", none⟩ [("name", "John Doe")]

/-- A generator environment in which both registry lookups resolve and the
LLM output parses. -/
def g6 : GenEnv := ⟨some "p1", some "pr7", .ok draftSR⟩

/-! ## C2: routing decision after validation -/

/-- C2: the after-validate routing decision returns Submit (post) when the
recorded validation outcome is valid; otherwise Repair (fix) when
retryCount is below the ceiling 3; otherwise Abort (end); and validity is
checked before the retry count, so a valid state with retryCount equal to
the ceiling still routes to Submit. -/
theorem c2_should_retry_decision (s : State) :
    (getValid s.validation_result = true → should_retry s = "post") ∧
    (getValid s.validation_result = false → s.retry_count < 3 →
      should_retry s = "fix") ∧
    (getValid s.validation_result = false → ¬ s.retry_count < 3 →
      should_retry s = "end") ∧
    (getValid s.validation_result = true → s.retry_count = 3 →
      should_retry s = "post") := by
  refine ⟨fun h => ?_, fun h hlt => ?_, fun h hge => ?_, fun h _ => ?_⟩ <;>
    simp [should_retry, h, *]

/-- C2 witness: the decision evaluated on concrete states covering the
three outcomes, including a valid state exactly at the ceiling. -/
theorem c2_should_retry_decision_witness :
    should_retry { i8 with validation_result := some ⟨true, []⟩,
                           retry_count := 3 } = "post" ∧
    should_retry { i8 with validation_result := some ⟨false, ["e"]⟩,
                           retry_count := 0 } = "fix" ∧
    should_retry { i8 with validation_result := some ⟨false, ["e"]⟩,
                           retry_count := 3 } = "end" :=
  ⟨(c2_should_retry_decision _).2.2.2 (by decide) (by decide),
   (c2_should_retry_decision _).2.1 (by decide) (by decide),
   (c2_should_retry_decision _).2.2.1 (by decide) (by decide)⟩

/-! ## C5: fixer on an empty error list -/

/-- C5 counterexample: invoked on a state whose validation-errors list is
empty, the fixer is not a no-op — the returned state differs from the
input, because final_json is overwritten with the candidate resource
(graph.py line 177). -/
theorem c5_counterexample :
    getErrors s5.validation_result = [] ∧ (fixer s5 (.error "boom")).1 ≠ s5 := by
  constructor
  · rfl
  · decide

/-- C5 (amended): with an empty validation-errors list the fixer leaves
the candidate resource, the retry count and every other field unchanged
and writes no audit record, but it does set final_json to the candidate
resource. -/
theorem c5_fixer_empty_errors (s : State) (env : Except String Obj)
    (h : getErrors s.validation_result = []) :
    fixer s env = ({ s with final_json := s.draft_json }, []) := by
  simp [fixer, h]

/-- C5 witness: the amended contract evaluated on a concrete state. -/
theorem c5_fixer_empty_errors_witness :
    getErrors s5.validation_result = [] ∧
    fixer s5 (.error "boom") = ({ s5 with final_json := s5.draft_json }, []) :=
  ⟨rfl, c5_fixer_empty_errors s5 (.error "boom") rfl⟩

/-! ## C6: generator input mutation -/

/-- C6 counterexample: after a generator run in which the patient lookup
resolves, the identity context is not the same as before the call — the
keys id and reference have been written into it in place (graph.py lines
47-49). -/
theorem c6_counterexample :
    (generator s6 g6).1.empi_data ≠ s6.empi_data ∧
    (generator s6 g6).1.empi_data =
      [("name", "John Doe"), ("id", "p1"), ("reference", "Patient/p1")] := by
  constructor
  · decide
  · decide

/-- C6 (amended): the generator never modifies the extracted content
(pdf_data) or the source path, but it does mutate the identity context:
whenever the live patient lookup resolves an id, the keys id and reference
are written into empi_data; when the lookup fails (or the step dies before
it on a missing text_content key), empi_data is unchanged. -/
theorem c6_generator_frame (s : State) (env : GenEnv) :
    (generator s env).1.pdf_data = s.pdf_data ∧
    (generator s env).1.pdf_path = s.pdf_path ∧
    (generator s env).1.empi_data =
      (match s.pdf_data.text_content, env.patientId with
       | some _, some pid =>
           (s.empi_data.set "id" pid).set "reference" ("Patient/" ++ pid)
       | _, _ => s.empi_data) := by
  cases htc : s.pdf_data.text_content <;> cases hp : env.patientId <;>
    cases hq : env.practitionerId <;> cases hl : env.llm <;>
      simp [generator, htc, hp, hq, hl]

/-! ## C7: validation transport failure -/

/-- C7: for a well-formed resource (resourceType ServiceRequest, client
parse succeeds) the validate call is total; when the endpoint answers with
a non-2xx status and no structured outcome, the result is valid = false
with exactly one synthetic error describing the transport failure, and no
retry happens at this layer (the function returns that single response
directly). -/
theorem c7_validate_transport_failure (res : Obj) (env : ValidateEnv)
    (status : Nat) (text : String)
    (hwf : res.get "resourceType" = some "ServiceRequest")
    (hparse : env.parseError = none)
    (hhttp : env.http = .httpErr status text)
    (_h2xx : status < 200 ∨ 300 ≤ status) :
    validate_fhir res env =
      ⟨false, ["HTTP " ++ toString status ++ ": " ++ text]⟩ ∧
    (validate_fhir res env).errors.length = 1 := by
  simp [validate_fhir, hwf, hparse, hhttp]

/-- C7 witness: a 503 response on a well-formed resource. -/
theorem c7_validate_transport_failure_witness :
    validate_fhir draftSR ⟨none, .httpErr 503 "Service Unavailable"⟩ =
      ⟨false, ["HTTP " ++ toString 503 ++ ": " ++ "Service Unavailable"]⟩ ∧
    (validate_fhir draftSR ⟨none, .httpErr 503 "Service Unavailable"⟩).errors.length = 1 :=
  c7_validate_transport_failure draftSR ⟨none, .httpErr 503 "Service Unavailable"⟩
    503 "Service Unavailable" (by decide) rfl rfl (Or.inr (by decide))

/-! ## C9: non-ServiceRequest resources -/

/-- C9: a resource whose resourceType is not ServiceRequest is rejected
with the single error Only ServiceRequest resources supported, and the
result does not depend on the remote endpoint's behaviour (the server is
never contacted: graph.py hands the same answer for every environment). -/
theorem c9_validate_non_servicerequest (res : Obj) (env1 env2 : ValidateEnv)
    (h : res.get "resourceType" ≠ some "ServiceRequest") :
    validate_fhir res env1 =
      ⟨false, ["Only ServiceRequest resources supported"]⟩ ∧
    validate_fhir res env1 = validate_fhir res env2 := by
  have hb : (res.get "resourceType" == some "ServiceRequest") = false := by
    simpa using h
  simp [validate_fhir, hb]

/-- C9 witness: a Patient resource against two different environments. -/
theorem c9_validate_non_servicerequest_witness :
    validate_fhir [("resourceType", "Patient")] ⟨none, .other⟩ =
      ⟨false, ["Only ServiceRequest resources supported"]⟩ ∧
    validate_fhir [("resourceType", "Patient")] ⟨none, .other⟩ =
      validate_fhir [("resourceType", "Patient")] ⟨some "p", .exn "q"⟩ :=
  c9_validate_non_servicerequest [("resourceType", "Patient")]
    ⟨none, .other⟩ ⟨some "p", .exn "q"⟩ (by decide)

/-! ## C10: identity-lookup failure does not abort the run -/

/-- C10: when the PDF exists and extraction succeeded, a missing patient
email or a failed EMPI lookup never aborts processing before generation:
process_referral proceeds to start the workflow on the initial state whose
identity context is the empty dict. -/
theorem c10_setup_proceeds_without_identity
    (pdfPath : String) (pdf : PdfData) (email : Option String)
    (empi : EmpiResult)
    (hpdf : pdf.success = true)
    (hid : email = none ∨ empi.success = false) :
    process_referral_setup true pdfPath pdf email empi =
      .ok (mkInit pdfPath pdf []) := by
  rcases hid with h | h
  · simp [process_referral_setup, hpdf, h]
  · cases email <;> simp [process_referral_setup, hpdf, h]

/-- C10 witness: a failed lookup on a concrete extraction result. -/
theorem c10_setup_proceeds_without_identity_witness :
    process_referral_setup true "d.pdf" pdfOk (some "a@b.c")
      ⟨false, [("id", "x")]⟩ = .ok (mkInit "d.pdf" pdfOk []) :=
  c10_setup_proceeds_without_identity "d.pdf" pdfOk (some "a@b.c")
    ⟨false, [("id", "x")]⟩ rfl (Or.inr rfl)

/-! ## Reachability invariants of the compiled graph -/

lemma Obj.ne_nil_of_get {o : Obj} {k v : String} (h : Obj.get o k = some v) :
    o ≠ [] := by
  intro he
  subst he
  simp [Obj.get] at h

lemma validate_valid_sr (r : Obj) (e : ValidateEnv)
    (h : (validate_fhir r e).valid = true) :
    r.get "resourceType" = some "ServiceRequest" := by
  by_cases hb : r.get "resourceType" = some "ServiceRequest"
  · exact hb
  · exfalso
    have hb2 : (r.get "resourceType" == some "ServiceRequest") = false := by
      simpa using hb
    simp [validate_fhir, hb2] at h

lemma validate_invalid_errors_ne (r : Obj) (e : ValidateEnv)
    (h : (validate_fhir r e).valid = false) :
    (validate_fhir r e).errors ≠ [] := by
  by_cases hb : (r.get "resourceType" == some "ServiceRequest") = true
  · cases hpe : e.parseError with
    | some msg => simp [validate_fhir, hb, hpe]
    | none =>
      cases hht : e.http with
      | outcome issues =>
        simp only [validate_fhir, hb, hpe, hht, if_true] at h ⊢
        by_cases hemp :
            ((issues.filter
              (fun i => i.severity == some "error" || i.severity == some "fatal")).map
              (fun i => i.diagnostics.getD "Unknown error")).isEmpty = true
        · simp [hemp] at h
        · simp only [hemp, Bool.false_eq_true, if_false]
          simpa [List.isEmpty_iff] using hemp
      | other => simp [validate_fhir, hb, hpe, hht] at h
      | httpErr status text => simp [validate_fhir, hb, hpe, hht]
      | exn msg => simp [validate_fhir, hb, hpe, hht]
  · have hb2 : (r.get "resourceType" == some "ServiceRequest") = false := by
      simpa using hb
    simp [validate_fhir, hb2]

lemma generator_frame_inv (s : State) (e : GenEnv) :
    (generator s e).1.validation_result = s.validation_result ∧
    (generator s e).1.final_json = s.final_json ∧
    (generator s e).1.retry_count = s.retry_count ∧
    (generator s e).1.posting_result = s.posting_result ∧
    (generator s e).2.length = 1 := by
  cases htc : s.pdf_data.text_content <;> cases hp : e.patientId <;>
    cases hq : e.practitionerId <;> cases hl : e.llm <;>
      simp [generator, htc, hp, hq, hl]

lemma validator_char (s : State) (e : ValidateEnv) :
    (validator s e).1 =
      (if (validate_fhir s.draft_json e).valid then
        { s with validation_result := some (validate_fhir s.draft_json e),
                 final_json := s.draft_json }
      else
        { s with validation_result := some (validate_fhir s.draft_json e) }) ∧
    (validator s e).2.length = 1 := by
  by_cases h : (validate_fhir s.draft_json e).valid <;> simp [validator, h]

lemma fixer_char_ne (s : State) (e : Except String Obj)
    (h : getErrors s.validation_result ≠ []) :
    (fixer s e).1.validation_result = s.validation_result ∧
    (fixer s e).1.final_json = s.final_json ∧
    (fixer s e).1.posting_result = s.posting_result ∧
    s.retry_count ≤ (fixer s e).1.retry_count ∧
    (fixer s e).1.retry_count ≤ s.retry_count + 1 ∧
    (fixer s e).2.length = 1 := by
  have hb : (getErrors s.validation_result).isEmpty = false := by
    simpa [List.isEmpty_iff] using h
  cases e <;> simp [fixer, hb]

lemma poster_frame (s : State) (e : PostHttp) :
    (poster s e).1.validation_result = s.validation_result ∧
    (poster s e).1.final_json = s.final_json ∧
    (poster s e).1.retry_count = s.retry_count ∧
    (poster s e).2.length = 1 := by
  simp [poster]

lemma logger_frame (s : State) :
    (logger_node s).1 = s ∧ (logger_node s).2.length = 1 := by
  simp [logger_node]

lemma should_retry_cases (s : State) :
    (getValid s.validation_result = true ∧ should_retry s = "post") ∨
    (getValid s.validation_result = false ∧ s.retry_count < 3 ∧
      should_retry s = "fix") ∨
    (getValid s.validation_result = false ∧ ¬ s.retry_count < 3 ∧
      should_retry s = "end") := by
  cases h1 : getValid s.validation_result
  · by_cases h2 : s.retry_count < 3
    · exact Or.inr (Or.inl ⟨rfl, h2, by simp [should_retry, h1, h2]⟩)
    · exact Or.inr (Or.inr ⟨rfl, h2, by simp [should_retry, h1, h2]⟩)
  · exact Or.inl ⟨rfl, by simp [should_retry, h1]⟩

lemma step_none {env : Env} {c : Config} (h : c.node = none) :
    stepConfig env c = c := by
  simp [stepConfig, h]

lemma step_gen {env : Env} {c : Config} (h : c.node = some .gen) :
    stepConfig env c =
      { c with node := some .val, state := (generator c.state env.gen).1,
               audit := c.audit ++ (generator c.state env.gen).2 } := by
  simp [stepConfig, h]

lemma step_val {env : Env} {c : Config} (h : c.node = some .val) :
    stepConfig env c =
      { c with
        node :=
          if should_retry (validator c.state (env.valids c.vCount)).1 = "post"
          then some .post
          else if should_retry (validator c.state (env.valids c.vCount)).1 = "fix"
          then some .fix
          else some .log,
        state := (validator c.state (env.valids c.vCount)).1,
        audit := c.audit ++ (validator c.state (env.valids c.vCount)).2,
        vCount := c.vCount + 1 } := by
  simp [stepConfig, h]

lemma step_fix {env : Env} {c : Config} (h : c.node = some .fix) :
    stepConfig env c =
      { c with node := some .val,
               state := (fixer c.state (env.fixes c.fCount)).1,
               audit := c.audit ++ (fixer c.state (env.fixes c.fCount)).2,
               fCount := c.fCount + 1 } := by
  simp [stepConfig, h]

lemma step_post {env : Env} {c : Config} (h : c.node = some .post) :
    stepConfig env c =
      { c with
        node :=
          if should_continue (poster c.state env.post).1 = "log"
          then some .log else none,
        state := (poster c.state env.post).1,
        audit := c.audit ++ (poster c.state env.post).2 } := by
  simp [stepConfig, h]

lemma step_log {env : Env} {c : Config} (h : c.node = some .log) :
    stepConfig env c =
      { c with node := none, state := (logger_node c.state).1,
               audit := c.audit ++ (logger_node c.state).2 } := by
  simp [stepConfig, h]

/-- Invariant preserved by every superstep of the graph: the final/valid
correspondence, non-emptiness of recorded invalid error lists, what is
known at each node about the recorded outcome, and the retry ceiling. -/
def Inv (c : Config) : Prop :=
  (c.state.final_json ≠ [] ↔ getValid c.state.validation_result = true) ∧
  (∀ vr, c.state.validation_result = some vr → vr.valid = false →
     vr.errors ≠ []) ∧
  (c.node = some .gen → c.state.validation_result = none) ∧
  (c.node = some .val → getValid c.state.validation_result = false) ∧
  (c.node = some .fix →
     ∃ vr, c.state.validation_result = some vr ∧ vr.valid = false) ∧
  c.state.retry_count ≤ 3 ∧
  (c.node = some .fix → c.state.retry_count < 3)

lemma inv_step (env : Env) (c : Config) (h : Inv c) : Inv (stepConfig env c) := by
  obtain ⟨h1, h2, h3, h4, h5, h6, h7⟩ := h
  cases hn : c.node with
  | none =>
    rw [step_none hn]
    exact ⟨h1, h2, h3, h4, h5, h6, h7⟩
  | some st =>
    cases st with
    | gen =>
      obtain ⟨g1, g2, g3, g4, _⟩ := generator_frame_inv c.state env.gen
      have hnode : (stepConfig env c).node = some .val := by
        rw [step_gen hn]
      have hstate : (stepConfig env c).state = (generator c.state env.gen).1 := by
        rw [step_gen hn]
      have hvn := h3 hn
      refine ⟨?_, ?_, ?_, ?_, ?_, ?_, ?_⟩
      · rw [hstate, g1, g2]
        exact h1
      · intro vr hvr
        rw [hstate, g1, hvn] at hvr
        exact absurd hvr (by simp)
      · intro hx
        rw [hnode] at hx
        exact absurd hx (by simp)
      · intro _
        rw [hstate, g1, hvn]
        rfl
      · intro hx
        rw [hnode] at hx
        exact absurd hx (by simp)
      · rw [hstate, g3]
        exact h6
      · intro hx
        rw [hnode] at hx
        exact absurd hx (by simp)
    | val =>
      obtain ⟨v1, _⟩ := validator_char c.state (env.valids c.vCount)
      set vr := validate_fhir c.state.draft_json (env.valids c.vCount) with hvrdef
      have hpre : getValid c.state.validation_result = false := h4 hn
      have hfin : c.state.final_json = [] := by
        by_contra hne
        have := h1.mp hne
        rw [hpre] at this
        exact absurd this (by simp)
      have hstate : (stepConfig env c).state =
          (validator c.state (env.valids c.vCount)).1 := by
        rw [step_val hn]
      have hrcpost : (stepConfig env c).state.retry_count = c.state.retry_count := by
        rw [hstate, v1]
        by_cases hv : vr.valid = true <;> simp [hv]
      cases hv : vr.valid with
      | true =>
        have hdraft : c.state.draft_json ≠ [] :=
          Obj.ne_nil_of_get (validate_valid_sr _ _ hv)
        have hsv : (validator c.state (env.valids c.vCount)).1 =
            { c.state with validation_result := some vr,
                           final_json := c.state.draft_json } := by
          rw [v1, if_pos hv]
        have hroute :
            should_retry (validator c.state (env.valids c.vCount)).1 = "post" := by
          rw [hsv]
          simp [should_retry, getValid, hv]
        have hnode : (stepConfig env c).node = some .post := by
          rw [step_val hn]
          simp [hroute]
        refine ⟨?_, ?_, ?_, ?_, ?_, ?_, ?_⟩
        · rw [hstate, hsv]
          simp [getValid, hv, hdraft]
        · intro vr2 hvr2
          rw [hstate, hsv] at hvr2
          simp at hvr2
          rw [← hvr2]
          intro hcon
          rw [hv] at hcon
          exact absurd hcon (by simp)
        · intro hx
          rw [hnode] at hx
          exact absurd hx (by simp)
        · intro hx
          rw [hnode] at hx
          exact absurd hx (by simp)
        · intro hx
          rw [hnode] at hx
          exact absurd hx (by simp)
        · rw [hrcpost]
          exact h6
        · intro hx
          rw [hnode] at hx
          exact absurd hx (by simp)
      | false =>
        have herrs : vr.errors ≠ [] := validate_invalid_errors_ne _ _ hv
        have hsv : (validator c.state (env.valids c.vCount)).1 =
            { c.state with validation_result := some vr } := by
          rw [v1, if_neg]
          rw [hv]
          simp
        by_cases hrc : c.state.retry_count < 3
        · have hroute :
              should_retry (validator c.state (env.valids c.vCount)).1 = "fix" := by
            rw [hsv]
            simp [should_retry, getValid, hv, hrc]
          have hnode : (stepConfig env c).node = some .fix := by
            rw [step_val hn]
            simp +decide [hroute]
          refine ⟨?_, ?_, ?_, ?_, ?_, ?_, ?_⟩
          · rw [hstate, hsv]
            simp [hfin, getValid, hv]
          · intro vr2 hvr2
            rw [hstate, hsv] at hvr2
            simp at hvr2
            rw [← hvr2]
            exact fun _ => herrs
          · intro hx
            rw [hnode] at hx
            exact absurd hx (by simp)
          · intro hx
            rw [hnode] at hx
            exact absurd hx (by simp)
          · intro _
            exact ⟨vr, by rw [hstate, hsv], hv⟩
          · rw [hrcpost]
            exact h6
          · intro _
            rw [hrcpost]
            exact hrc
        · have hroute :
              should_retry (validator c.state (env.valids c.vCount)).1 = "end" := by
            rw [hsv]
            simp [should_retry, getValid, hv, hrc]
          have hnode : (stepConfig env c).node = some .log := by
            rw [step_val hn]
            simp +decide [hroute]
          refine ⟨?_, ?_, ?_, ?_, ?_, ?_, ?_⟩
          · rw [hstate, hsv]
            simp [hfin, getValid, hv]
          · intro vr2 hvr2
            rw [hstate, hsv] at hvr2
            simp at hvr2
            rw [← hvr2]
            exact fun _ => herrs
          · intro hx
            rw [hnode] at hx
            exact absurd hx (by simp)
          · intro hx
            rw [hnode] at hx
            exact absurd hx (by simp)
          · intro hx
            rw [hnode] at hx
            exact absurd hx (by simp)
          · rw [hrcpost]
            exact h6
          · intro hx
            rw [hnode] at hx
            exact absurd hx (by simp)
    | fix =>
      obtain ⟨vr, hvr, hvv⟩ := h5 hn
      have herrs : getErrors c.state.validation_result ≠ [] := by
        rw [hvr]
        exact h2 vr hvr hvv
      obtain ⟨f1, f2, f3, f4, f5, _⟩ :=
        fixer_char_ne c.state (env.fixes c.fCount) herrs
      have hrc := h7 hn
      have hnode : (stepConfig env c).node = some .val := by
        rw [step_fix hn]
      have hstate : (stepConfig env c).state =
          (fixer c.state (env.fixes c.fCount)).1 := by
        rw [step_fix hn]
      refine ⟨?_, ?_, ?_, ?_, ?_, ?_, ?_⟩
      · rw [hstate, f1, f2]
        exact h1
      · intro vr2 hvr2
        rw [hstate, f1] at hvr2
        exact h2 vr2 hvr2
      · intro hx
        rw [hnode] at hx
        exact absurd hx (by simp)
      · intro _
        rw [hstate, f1, hvr]
        simp [getValid, hvv]
      · intro hx
        rw [hnode] at hx
        exact absurd hx (by simp)
      · rw [hstate]
        omega
      · intro hx
        rw [hnode] at hx
        exact absurd hx (by simp)
    | post =>
      obtain ⟨p1, p2, p3, _⟩ := poster_frame c.state env.post
      have hstate : (stepConfig env c).state = (poster c.state env.post).1 := by
        rw [step_post hn]
      have hnodes : (stepConfig env c).node = some .log ∨
          (stepConfig env c).node = none := by
        rw [step_post hn]
        by_cases hcont : should_continue (poster c.state env.post).1 = "log" <;>
          simp [hcont]
      refine ⟨?_, ?_, ?_, ?_, ?_, ?_, ?_⟩
      · rw [hstate, p1, p2]
        exact h1
      · intro vr2 hvr2
        rw [hstate, p1] at hvr2
        exact h2 vr2 hvr2
      · intro hx
        rcases hnodes with hx2 | hx2 <;> rw [hx2] at hx <;>
          exact absurd hx (by simp)
      · intro hx
        rcases hnodes with hx2 | hx2 <;> rw [hx2] at hx <;>
          exact absurd hx (by simp)
      · intro hx
        rcases hnodes with hx2 | hx2 <;> rw [hx2] at hx <;>
          exact absurd hx (by simp)
      · rw [hstate, p3]
        exact h6
      · intro hx
        rcases hnodes with hx2 | hx2 <;> rw [hx2] at hx <;>
          exact absurd hx (by simp)
    | log =>
      obtain ⟨l1, _⟩ := logger_frame c.state
      have hstate : (stepConfig env c).state = c.state := by
        rw [step_log hn]
        exact l1
      have hnode : (stepConfig env c).node = none := by
        rw [step_log hn]
      refine ⟨?_, ?_, ?_, ?_, ?_, ?_, ?_⟩
      · rw [hstate]
        exact h1
      · rw [hstate]
        exact h2
      · intro hx
        rw [hnode] at hx
        exact absurd hx (by simp)
      · intro hx
        rw [hnode] at hx
        exact absurd hx (by simp)
      · intro hx
        rw [hnode] at hx
        exact absurd hx (by simp)
      · rw [hstate]
        exact h6
      · intro hx
        rw [hnode] at hx
        exact absurd hx (by simp)

lemma inv_reach (env : Env) (pdfPath : String) (pdf : PdfData) (empi : Obj)
    (n : Nat) : Inv (reach env (mkInit pdfPath pdf empi) n) := by
  induction n with
  | zero =>
    refine ⟨?_, ?_, ?_, ?_, ?_, ?_, ?_⟩ <;>
      simp [reach, mkInit, getValid]
  | succ n ih => exact inv_step env _ ih

/-! ## C3: retry ceiling -/

/-- C3: whenever the fixer node is about to execute, the state's
retry_count is strictly below the ceiling 3, and at every point of every
run retry_count never exceeds 3. -/
theorem c3_retry_ceiling (env : Env) (pdfPath : String) (pdf : PdfData)
    (empi : Obj) (n : Nat) :
    ((reach env (mkInit pdfPath pdf empi) n).node = some .fix →
      (reach env (mkInit pdfPath pdf empi) n).state.retry_count < 3) ∧
    (reach env (mkInit pdfPath pdf empi) n).state.retry_count ≤ 3 := by
  obtain ⟨_, _, _, _, _, h6, h7⟩ := inv_reach env pdfPath pdf empi n
  exact ⟨h7, h6⟩

/-- C3 witness: a run that actually reaches the fixer, two supersteps in. -/
theorem c3_retry_ceiling_witness :
    (reach E8 i8 2).node = some Step.fix ∧
    (reach E8 i8 2).state.retry_count < 3 ∧
    (reach E8 i8 2).state.retry_count ≤ 3 :=
  ⟨by decide, (c3_retry_ceiling E8 "doc.pdf" pdfOk [] 2).1 (by decide),
   (c3_retry_ceiling E8 "doc.pdf" pdfOk [] 2).2⟩

/-! ## C4: finalResource iff last validation valid -/

/-- C4: in every reachable run state, final_json is non-empty exactly when
the most recently recorded validation outcome is valid; no step sets it
under any other condition (the fixer's defensive write is unreachable
because an invalid recorded outcome always carries at least one error). -/
theorem c4_final_iff_valid (env : Env) (pdfPath : String) (pdf : PdfData)
    (empi : Obj) (n : Nat) :
    (reach env (mkInit pdfPath pdf empi) n).state.final_json ≠ [] ↔
      getValid (reach env (mkInit pdfPath pdf empi) n).state.validation_result
        = true :=
  (inv_reach env pdfPath pdf empi n).1

/-- C4 witness: after the fourth validation of the E8 run passes, the
recorded outcome is valid and final_json is indeed set. -/
theorem c4_final_iff_valid_witness :
    getValid (reach E8 i8 8).state.validation_result = true ∧
    (reach E8 i8 8).state.final_json ≠ [] :=
  ⟨by decide, (c4_final_iff_valid E8 "doc.pdf" pdfOk [] 8).mpr (by decide)⟩

/-! ## C8: audit-record count -/

/-- Upper bound on the audit records a run can still write from a given
node at a given retry count, when every repair parses. -/
def phi : Option Step → Nat → Nat
  | none, _ => 0
  | some .log, _ => 1
  | some .post, _ => 2
  | some .val, rc => 3 + 2 * (3 - rc)
  | some .fix, rc => 4 + 2 * (2 - rc)
  | some .gen, rc => 4 + 2 * (3 - rc)

/-- Every fixer invocation's LLM output parses (no repair execution
error). -/
def FixesOk (env : Env) : Prop := ∀ k, ∃ o, env.fixes k = .ok o

lemma fixer_ok_rc (s : State) (o : Obj)
    (h : getErrors s.validation_result ≠ []) :
    (fixer s (.ok o)).1.retry_count = s.retry_count + 1 ∧
    (fixer s (.ok o)).2.length = 1 := by
  have hb : (getErrors s.validation_result).isEmpty = false := by
    simpa [List.isEmpty_iff] using h
  simp [fixer, hb]

lemma phi_step (env : Env) (c : Config) (hfix : FixesOk env) (hinv : Inv c) :
    (stepConfig env c).audit.length +
      phi (stepConfig env c).node (stepConfig env c).state.retry_count ≤
    c.audit.length + phi c.node c.state.retry_count := by
  obtain ⟨h1, h2, h3, h4, h5, h6, h7⟩ := hinv
  cases hn : c.node with
  | none =>
    rw [step_none hn, hn]
  | some st =>
    cases st with
    | gen =>
      obtain ⟨_, _, g3, _, glen⟩ := generator_frame_inv c.state env.gen
      rw [step_gen hn]
      simp [List.length_append, glen, g3, phi]
      omega
    | val =>
      obtain ⟨v1, vlen⟩ := validator_char c.state (env.valids c.vCount)
      have hrcpost : (validator c.state (env.valids c.vCount)).1.retry_count =
          c.state.retry_count := by
        rw [v1]
        by_cases hv : (validate_fhir c.state.draft_json (env.valids c.vCount)).valid = true <;>
          simp [hv]
      rw [step_val hn]
      rcases should_retry_cases (validator c.state (env.valids c.vCount)).1 with
        ⟨_, hroute⟩ | ⟨_, hrc, hroute⟩ | ⟨_, _, hroute⟩ <;>
        simp +decide [hroute, List.length_append, vlen, hrcpost, phi] <;>
        omega
    | fix =>
      obtain ⟨vr, hvr, hvv⟩ := h5 hn
      have herrs : getErrors c.state.validation_result ≠ [] := by
        rw [hvr]
        exact h2 vr hvr hvv
      obtain ⟨o, ho⟩ := hfix c.fCount
      obtain ⟨frc, flen⟩ := fixer_ok_rc c.state o herrs
      rw [step_fix hn, ho]
      simp [List.length_append, flen, frc, phi]
      omega
    | post =>
      obtain ⟨_, _, p3, plen⟩ := poster_frame c.state env.post
      rw [step_post hn]
      by_cases hcont : should_continue (poster c.state env.post).1 = "log" <;>
        simp [hcont, List.length_append, plen, phi] <;>
        omega
    | log =>
      obtain ⟨l1, llen⟩ := logger_frame c.state
      rw [step_log hn]
      simp [List.length_append, llen, phi]

lemma audit_bound (env : Env) (pdfPath : String) (pdf : PdfData) (empi : Obj)
    (hfix : FixesOk env) (n : Nat) :
    (reach env (mkInit pdfPath pdf empi) n).audit.length +
      phi (reach env (mkInit pdfPath pdf empi) n).node
        (reach env (mkInit pdfPath pdf empi) n).state.retry_count ≤ 10 := by
  induction n with
  | zero => simp [reach, mkInit, phi]
  | succ n ih =>
    exact le_trans
      (phi_step env _ hfix (inv_reach env pdfPath pdf empi n)) ih

lemma audit_len_mono (env : Env) (c : Config) :
    c.audit.length ≤ (stepConfig env c).audit.length := by
  cases hn : c.node with
  | none => rw [step_none hn]
  | some st =>
    cases st with
    | gen => rw [step_gen hn]; simp
    | val => rw [step_val hn]; simp
    | fix => rw [step_fix hn]; simp
    | post => rw [step_post hn]; simp
    | log => rw [step_log hn]; simp

lemma audit_min (env : Env) (init : State) (n : Nat) :
    (reach env init n).node ≠ some .gen →
    1 ≤ (reach env init n).audit.length := by
  induction n with
  | zero =>
    intro hne
    exact absurd rfl hne
  | succ n ih =>
    intro _
    by_cases hn : (reach env init n).node = some .gen
    · show 1 ≤ (stepConfig env (reach env init n)).audit.length
      rw [step_gen hn]
      obtain ⟨_, _, _, _, glen⟩ :=
        generator_frame_inv (reach env init n).state env.gen
      simp [List.length_append, glen]
    · exact le_trans (ih hn) (audit_len_mono env _)

/-- C8 counterexample: a run in which generation succeeds, three repair
cycles happen and the fourth validation passes terminates with 10 audit
records — more than the claimed bound of 2 + 2*3 = 8. -/
theorem c8_counterexample :
    (reach E8 i8 10).node = none ∧
    ¬ (reach E8 i8 10).audit.length ≤ 8 ∧
    (reach E8 i8 10).audit.map AuditRecord.operation =
      ["generator", "validator", "fixer", "validator", "fixer", "validator",
       "fixer", "validator", "poster", "complete_workflow"] := by
  refine ⟨by decide, by decide, by decide⟩

/-- C8 (amended): in any run in which every repair invocation's LLM output
parses, the number of audit records written is at least 1 once the run has
terminated and at most 4 + 2*ceiling = 10 (generator, up to ceiling + 1
validator records, up to ceiling fixer records, poster, and the final
complete_workflow record).  Without that proviso the count is unbounded: a
repair execution error does not increment retry_count, so the
validate/repair cycle can repeat arbitrarily often. -/
theorem c8_audit_count (env : Env) (pdfPath : String) (pdf : PdfData)
    (empi : Obj) (n : Nat) (hfix : FixesOk env) :
    (reach env (mkInit pdfPath pdf empi) n).audit.length ≤ 10 ∧
    ((reach env (mkInit pdfPath pdf empi) n).node = none →
      1 ≤ (reach env (mkInit pdfPath pdf empi) n).audit.length) := by
  constructor
  · have := audit_bound env pdfPath pdf empi hfix n
    omega
  · intro hnone
    refine audit_min env _ n ?_
    rw [hnone]
    simp

/-- C8 witness: the E8 run satisfies the proviso and the amended bounds,
attaining the maximum of 10. -/
theorem c8_audit_count_witness :
    FixesOk E8 ∧
    (reach E8 i8 10).audit.length ≤ 10 ∧
    ((reach E8 i8 10).node = none → 1 ≤ (reach E8 i8 10).audit.length) := by
  have hfix : FixesOk E8 := fun k => ⟨draftSR, rfl⟩
  exact ⟨hfix, (c8_audit_count E8 "doc.pdf" pdfOk [] 10 hfix).1,
    (c8_audit_count E8 "doc.pdf" pdfOk [] 10 hfix).2⟩

/-! ## C1: execution errors do not short-circuit the run -/

/-- C1 counterexample: in a run whose generator raises (no patients found),
the error is recorded as a failed AuditRecord and placed into
error_message — but the run is not short-circuited: the validator executes
next, and then the fixer, instead of transitioning directly to a terminal
state. -/
theorem c1_counterexample :
    (reach E1 i8 1).state.error_message = noPatientsMsg ∧
    (reach E1 i8 1).audit = [⟨"generator", false, 0, some noPatientsMsg⟩] ∧
    (reach E1 i8 3).audit.map AuditRecord.operation =
      ["generator", "validator", "fixer"] := by
  refine ⟨by decide, by decide, by decide⟩

/-- C1 (amended): an error raised inside Generate is caught inside the
node: it is recorded as a failed AuditRecord and placed into
error_message, but the run is not short-circuited — the graph's routing
never consults error_message, so the next node to execute is the
validator, which writes a further audit record. -/
theorem c1_error_recorded_not_short_circuited (env : Env) (pdfPath : String)
    (pdf : PdfData) (empi : Obj) (t : String)
    (htc : pdf.text_content = some t)
    (hgen : env.gen.patientId = none) :
    (reach env (mkInit pdfPath pdf empi) 1).state.error_message =
      noPatientsMsg ∧
    (reach env (mkInit pdfPath pdf empi) 1).audit =
      [⟨"generator", false, 0, some noPatientsMsg⟩] ∧
    (reach env (mkInit pdfPath pdf empi) 1).node = some .val ∧
    (reach env (mkInit pdfPath pdf empi) 2).audit.length = 2 := by
  have hg : generator (mkInit pdfPath pdf empi) env.gen =
      ({ mkInit pdfPath pdf empi with error_message := noPatientsMsg },
       [⟨"generator", false, 0, some noPatientsMsg⟩]) := by
    simp [generator, mkInit, htc, hgen]
  have hr1 : reach env (mkInit pdfPath pdf empi) 1 =
      { node := some .val,
        state := { mkInit pdfPath pdf empi with error_message := noPatientsMsg },
        audit := [⟨"generator", false, 0, some noPatientsMsg⟩],
        vCount := 0, fCount := 0 } := by
    show stepConfig env (reach env (mkInit pdfPath pdf empi) 0) = _
    rw [show reach env (mkInit pdfPath pdf empi) 0 =
          ⟨some .gen, mkInit pdfPath pdf empi, [], 0, 0⟩ from rfl,
        step_gen rfl]
    simp [hg]
  refine ⟨by rw [hr1], by rw [hr1], by rw [hr1], ?_⟩
  show (stepConfig env (reach env (mkInit pdfPath pdf empi) 1)).audit.length = 2
  rw [step_val (by rw [hr1])]
  simp [hr1, (validator_char _ _).2]

/-- C1 witness: the amended statement evaluated on the concrete E1 run. -/
theorem c1_error_recorded_not_short_circuited_witness :
    (reach E1 i8 1).state.error_message = noPatientsMsg ∧
    (reach E1 i8 1).audit = [⟨"generator", false, 0, some noPatientsMsg⟩] ∧
    (reach E1 i8 1).node = some Step.val ∧
    (reach E1 i8 2).audit.length = 2 :=
  c1_error_recorded_not_short_circuited E1 "doc.pdf" pdfOk [] "referral text"
    rfl rfl

end ReferralRouter
